import Mathlib

/- Shallow embedding of the core logic of the embeddings-eval repository:
   the metrics engine (src/lib/windows-fix.js, class Metrics), the result
   validator (src/unnamed/part_012, class Validator), and the result-shaping
   and rerank-fallback logic of the search pipeline (src/index.js,
   src/lib/rerank-utils.js, src/unnamed/part_002).

   Numbers stored in JavaScript variables are modelled as ℚ (costs,
   percentages) and ℕ (token, runtime and id counts); ids are ℤ.
   The JavaScript field names recall and precision are written recallPct
   and precisionPct (the spec's names for the same fields), because recall
   is a reserved word in this development's ambient library. -/

namespace EmbeddingsEval

/-- One recorded evaluation outcome, as stored by Metrics.addEvaluateMetrics
(src/lib/windows-fix.js lines 108-123). -/
structure EvalOutcome where
  search : String
  tokens : ℕ
  runtime : ℕ
  cost : ℚ
  recallPct : ℚ
  precisionPct : ℚ
  expectedCount : ℕ
  foundCount : ℕ
  returnedCount : ℕ
deriving DecidableEq

/-- A recall/precision pair, mirroring the microAveraging / macroAveraging /
weightedAveraging sub-objects of the report. -/
structure Averaging where
  recallPct : ℚ
  precisionPct : ℚ
deriving DecidableEq

/-- The aggregate report returned by Metrics.getEvaluateTotals
(src/lib/windows-fix.js lines 239-256). -/
structure EvaluateTotals where
  totalTokens : ℕ
  totalRuntime : ℕ
  totalCost : ℚ
  queryCount : ℕ
  microAveraging : Averaging
  macroAveraging : Averaging
  weightedAveraging : Averaging
deriving DecidableEq

/-- Rounding to 8 decimal places, modelling
parseFloat(totalCost.toFixed(8)) (src/lib/windows-fix.js line 242). -/
def round8 (q : ℚ) : ℚ := (round (q * 100000000) : ℤ) / 100000000

/-- The totalExpectedCount accumulator of getEvaluateTotals
(src/lib/windows-fix.js lines 190-205): an outcome with expectedCount == 0
adds 1, every other adds its expectedCount. -/
def microExpectedTotal (ms : List EvalOutcome) : ℕ :=
  (ms.map (fun m => if m.expectedCount = 0 then 1 else m.expectedCount)).sum

/-- The totalFoundCount accumulator of getEvaluateTotals
(src/lib/windows-fix.js lines 191-205): an outcome with expectedCount == 0
adds 1 when returnedCount == 0 and 0 otherwise, every other adds its
foundCount. -/
def microFoundTotal (ms : List EvalOutcome) : ℕ :=
  (ms.map (fun m =>
    if m.expectedCount = 0 then (if m.returnedCount = 0 then 1 else 0)
    else m.foundCount)).sum

/-- The totalReturnedCount accumulator of getEvaluateTotals
(src/lib/windows-fix.js lines 192-205): an outcome with expectedCount == 0
adds 1 when returnedCount == 0 and returnedCount otherwise, every other adds
its returnedCount. -/
def microReturnedTotal (ms : List EvalOutcome) : ℕ :=
  (ms.map (fun m =>
    if m.expectedCount = 0 then (if m.returnedCount = 0 then 1 else m.returnedCount)
    else m.returnedCount)).sum

/-- The weightedRecallSum accumulator of getEvaluateTotals
(src/lib/windows-fix.js lines 219-234): recall weighted by expectedCount,
with weight 1 for outcomes with expectedCount == 0. -/
def weightedRecallSum (ms : List EvalOutcome) : ℚ :=
  (ms.map (fun m =>
    if m.expectedCount = 0 then m.recallPct * 1
    else m.recallPct * (m.expectedCount : ℚ))).sum

/-- The weightedPrecisionSum accumulator of getEvaluateTotals
(src/lib/windows-fix.js lines 220-234). -/
def weightedPrecisionSum (ms : List EvalOutcome) : ℚ :=
  (ms.map (fun m =>
    if m.expectedCount = 0 then m.precisionPct * 1
    else m.precisionPct * (m.expectedCount : ℚ))).sum

/-- The weightedTotalExpected accumulator of getEvaluateTotals
(src/lib/windows-fix.js lines 221-234): same accumulation as
totalExpectedCount. -/
def weightedTotalExpected (ms : List EvalOutcome) : ℕ :=
  (ms.map (fun m => if m.expectedCount = 0 then 1 else m.expectedCount)).sum

/-- Metrics.getEvaluateTotals (src/lib/windows-fix.js lines 184-257): straight
sums of tokens/runtime/cost, micro-averaged pooled counts with the special
handling of outcomes with expectedCount == 0, macro (per-outcome average) and
expected-count-weighted averages, each ratio guarded by a positivity check on
its denominator. -/
def getEvaluateTotals (evaluateMetrics : List EvalOutcome) : EvaluateTotals :=
  { totalTokens := (evaluateMetrics.map (·.tokens)).sum
    totalRuntime := (evaluateMetrics.map (·.runtime)).sum
    totalCost := round8 ((evaluateMetrics.map (·.cost)).sum)
    queryCount := evaluateMetrics.length
    microAveraging :=
      { recallPct :=
          if 0 < microExpectedTotal evaluateMetrics then
            ((microFoundTotal evaluateMetrics : ℚ)
              / (microExpectedTotal evaluateMetrics : ℚ)) * 100
          else 0
        precisionPct :=
          if 0 < microReturnedTotal evaluateMetrics then
            ((microFoundTotal evaluateMetrics : ℚ)
              / (microReturnedTotal evaluateMetrics : ℚ)) * 100
          else 0 }
    macroAveraging :=
      { recallPct :=
          if 0 < evaluateMetrics.length then
            (evaluateMetrics.map (·.recallPct)).sum / (evaluateMetrics.length : ℚ)
          else 0
        precisionPct :=
          if 0 < evaluateMetrics.length then
            (evaluateMetrics.map (·.precisionPct)).sum / (evaluateMetrics.length : ℚ)
          else 0 }
    weightedAveraging :=
      { recallPct :=
          if 0 < weightedTotalExpected evaluateMetrics then
            weightedRecallSum evaluateMetrics / (weightedTotalExpected evaluateMetrics : ℚ)
          else 0
        precisionPct :=
          if 0 < weightedTotalExpected evaluateMetrics then
            weightedPrecisionSum evaluateMetrics / (weightedTotalExpected evaluateMetrics : ℚ)
          else 0 } }

/-- Metrics.calculateRecall (src/lib/windows-fix.js lines 131-141). -/
def calculateRecall (foundIds expectedIds : List ℤ) : ℚ :=
  if expectedIds.length = 0 then (if foundIds.length = 0 then 100 else 0)
  else
    ((expectedIds.filter (fun id => decide (id ∈ foundIds))).length : ℚ)
      / (expectedIds.length : ℚ) * 100

/-- Metrics.calculatePrecision (src/lib/windows-fix.js lines 149-161). -/
def calculatePrecision (foundIds expectedIds : List ℤ) : ℚ :=
  if expectedIds.length = 0 then (if foundIds.length = 0 then 100 else 0)
  else if foundIds.length = 0 then 0
  else
    ((foundIds.filter (fun id => decide (id ∈ expectedIds))).length : ℚ)
      / (foundIds.length : ℚ) * 100

/-- Pooled expected-total as claim C1 phrases it: an outcome with
expectedCount == 0 contributes 1, every other contributes its expectedCount. -/
def specPooledExpected (ms : List EvalOutcome) : ℕ :=
  (ms.map (fun m => if m.expectedCount = 0 then 1 else m.expectedCount)).sum

/-- Pooled found-total as claim C1 phrases it: an outcome with
expectedCount == 0 contributes 1 iff its returnedCount == 0, every other
contributes its foundCount. -/
def specPooledFound (ms : List EvalOutcome) : ℕ :=
  (ms.map (fun m =>
    if m.expectedCount = 0 then (if m.returnedCount = 0 then 1 else 0)
    else m.foundCount)).sum

/-- Pooled returned-total as claim C1 phrases it: an outcome with
expectedCount == 0 contributes max(1, returnedCount), every other contributes
its returnedCount. -/
def specPooledReturned (ms : List EvalOutcome) : ℕ :=
  (ms.map (fun m =>
    if m.expectedCount = 0 then max 1 m.returnedCount
    else m.returnedCount)).sum

/-- The result object returned by Validator.validateResults. -/
structure ValidationResult where
  isValid : Bool
  message : String
deriving DecidableEq

/-- The failure message of Validator.validateResults, enumerating the missing
expected ids (src/unnamed/part_012 lines 84-88). -/
def missingIdsMessage (missingIds : List ℤ) : String :=
  "Expected IDs [" ++ String.intercalate ", " (missingIds.map toString)
    ++ "] not found in results"

/-- Validator.validateResults (src/unnamed/part_012 lines 75-92): an empty
expectation list is always valid; otherwise the expected ids missing from
foundIds are collected, validity holds iff none are missing, and on failure
the message lists the missing ids. -/
def validateResults (foundIds expectedIds : List ℤ) : ValidationResult :=
  if expectedIds.length = 0 then
    { isValid := true, message := "No expectations to validate" }
  else
    let missingIds := expectedIds.filter (fun id => decide (id ∉ foundIds))
    if 0 < missingIds.length then
      { isValid := false, message := missingIdsMessage missingIds }
    else
      { isValid := true
        message := "All " ++ toString expectedIds.length
          ++ " expected results found in results" }

/-- A search candidate as shaped by EmbeddingsEvaluator.search
(src/index.js lines 383-404): id, score (similarity, or reranked relevance
after reranking) plus display fields. -/
structure Candidate where
  id : ℤ
  score : ℚ
  title : String
  description : String
deriving DecidableEq

/-- The similarity-threshold partition of EmbeddingsEvaluator.search
(src/index.js lines 374-404): candidates with score >= minSimilarity in
original order, and the candidates below the threshold truncated to the
first 3 for diagnostic display. -/
def applyThreshold (results : List Candidate) (minSimilarity : ℚ) :
    List Candidate × List Candidate :=
  (results.filter (fun r => decide (minSimilarity ≤ r.score)),
   (results.filter (fun r => decide (r.score < minSimilarity))).take 3)

/-- separateRerankedResults (src/lib/rerank-utils.js lines 96-112): a forEach
loop pushing each reranked result onto the above or the below list according
to score >= minSimilarity, then truncating the below list to 3 entries. The
originalResults parameter is accepted and unused, exactly as in the source. -/
def separateRerankedResults (rerankedResults originalResults : List Candidate)
    (minSimilarity : ℚ) : List Candidate × List Candidate :=
  let pairs := rerankedResults.foldl
    (fun (acc : List Candidate × List Candidate) result =>
      if minSimilarity ≤ result.score then (acc.1 ++ [result], acc.2)
      else (acc.1, acc.2 ++ [result]))
    ([], [])
  (pairs.1, pairs.2.take 3)

/-- The final limiting step of EmbeddingsEvaluator.search
(src/index.js lines 449-451): with a positive minSimilarity all
above-threshold candidates are kept, otherwise only the first topK. -/
def limitResults (candidateResults : List Candidate) (minSimilarity : ℚ)
    (topK : ℕ) : List Candidate :=
  if 0 < minSimilarity then candidateResults else candidateResults.take topK

/-- calculateRerankerCost (src/lib/rerank-utils.js lines 47-65): voyageai
charges 0.05 dollars per 1000 searches, one search per query-document pair;
an unknown vendor costs 0. -/
def calculateRerankerCost (vendor : String) (queryCount documentCount : ℕ) : ℚ :=
  if vendor.toLower = "voyageai" then
    ((queryCount * documentCount : ℕ) : ℚ) / 1000 * (5 / 100)
  else 0

/-- The per-query output assembled by EmbeddingsEvaluator.search
(src/unnamed/part_002 lines 236-256): final results, diagnostic
below-threshold results and the reranker cost recorded for the query. -/
structure SearchOutput where
  results : List Candidate
  belowThresholdResults : List Candidate
  rerankerCost : ℚ
deriving DecidableEq

/-- The result-shaping of EmbeddingsEvaluator.search for a query evaluated
without a configured reranker, or after a rerank failure
(src/index.js lines 374-404 and 449-453): the similarity-threshold partition
followed by the limiting step, with no reranker cost. -/
def searchShapeNoRerank (results : List Candidate) (minSimilarity : ℚ)
    (topK : ℕ) : SearchOutput :=
  { results := limitResults (applyThreshold results minSimilarity).1 minSimilarity topK
    belowThresholdResults := (applyThreshold results minSimilarity).2
    rerankerCost := 0 }

/-- The result-shaping of EmbeddingsEvaluator.search with a configured
reranker (src/unnamed/part_002 lines 150-256): the similarity partition is
computed first; when the rerank call on the first 10 candidates succeeds its
reranked partition replaces the similarity one and the reranker cost is
recorded, and when it fails (the catch branch) the similarity partition is
kept unchanged, the query continues, and rerankerCost is reset to 0. -/
def searchShape (vendor : String) (results : List Candidate)
    (minSimilarity : ℚ) (topK : ℕ)
    (rerankOutcome : Except String (List Candidate)) : SearchOutput :=
  let candidateResults := (applyThreshold results minSimilarity).1
  let belowThresholdTop3 := (applyThreshold results minSimilarity).2
  match rerankOutcome with
  | Except.ok rerankedResults =>
      let sep := separateRerankedResults rerankedResults candidateResults minSimilarity
      { results := limitResults sep.1 minSimilarity topK
        belowThresholdResults := sep.2
        rerankerCost := calculateRerankerCost vendor 1 (results.take 10).length }
  | Except.error _ =>
      { results := limitResults candidateResults minSimilarity topK
        belowThresholdResults := belowThresholdTop3
        rerankerCost := 0 }

/-- The data-model preconditions on one recorded outcome (spec section 3):
percentages within [0,100], foundCount bounded by returnedCount, and bounded
by expectedCount whenever expectedCount is positive. -/
def OutcomeWellFormed (m : EvalOutcome) : Prop :=
  0 ≤ m.recallPct ∧ m.recallPct ≤ 100 ∧
  0 ≤ m.precisionPct ∧ m.precisionPct ≤ 100 ∧
  m.foundCount ≤ m.returnedCount ∧
  (0 < m.expectedCount → m.foundCount ≤ m.expectedCount)

/-- A concrete recorded outcome used by the closed-instance theorems. -/
def sampleOutcomeA : EvalOutcome :=
  { search := "alpha", tokens := 3, runtime := 5, cost := 1/2, recallPct := 50
    precisionPct := 25, expectedCount := 2, foundCount := 1, returnedCount := 4 }

/-- A second concrete recorded outcome, with an empty expectation set, used
by the closed-instance theorems. -/
def sampleOutcomeB : EvalOutcome :=
  { search := "beta", tokens := 1, runtime := 2, cost := 1/4, recallPct := 100
    precisionPct := 100, expectedCount := 0, foundCount := 0, returnedCount := 0 }

/-- A concrete candidate used by the closed-instance theorems. -/
def sampleCandidate : Candidate :=
  { id := 7, score := 8/10, title := "t", description := "d" }

end EmbeddingsEval

namespace EmbeddingsEval

/-- C10: on an empty history getEvaluateTotals returns 0 everywhere: 0 tokens,
runtime, cost and query count, and 0 (not a division error) for micro, macro
and weighted recall and precision, every denominator being guarded. -/
theorem getEvaluateTotals_empty :
    getEvaluateTotals [] =
      { totalTokens := 0
        totalRuntime := 0
        totalCost := 0
        queryCount := 0
        microAveraging := { recallPct := 0, precisionPct := 0 }
        macroAveraging := { recallPct := 0, precisionPct := 0 }
        weightedAveraging := { recallPct := 0, precisionPct := 0 } } := by
  simp [getEvaluateTotals, round8, microExpectedTotal, microFoundTotal,
    microReturnedTotal, weightedRecallSum, weightedPrecisionSum,
    weightedTotalExpected]

/-- Helper for claim C1: the code's returned-count accumulation coincides with
the spec's max(1, returnedCount) phrasing. -/
theorem microReturnedTotal_eq_specPooledReturned (ms : List EvalOutcome) :
    microReturnedTotal ms = specPooledReturned ms := by
  unfold microReturnedTotal specPooledReturned
  congr 1
  apply List.map_congr_left
  intro m _
  by_cases h : m.expectedCount = 0
  · by_cases hr : m.returnedCount = 0
    · simp [h, hr]
    · simp [h, hr, Nat.max_eq_right (Nat.one_le_iff_ne_zero.mpr hr)]
  · simp [h]

/-- C1: the micro-averaged totals pool raw counts exactly as the spec states
(expectedCount == 0 contributes 1 to expected, 1 to found iff returnedCount
is 0, and max(1, returnedCount) to returned; other outcomes contribute their
raw counts), and micro recall and precision are 100 * found / expected and
100 * found / returned over those pooled totals. -/
theorem getEvaluateTotals_micro_spec (ms : List EvalOutcome) :
    (getEvaluateTotals ms).microAveraging.recallPct =
      100 * (specPooledFound ms : ℚ) / (specPooledExpected ms : ℚ) ∧
    (getEvaluateTotals ms).microAveraging.precisionPct =
      100 * (specPooledFound ms : ℚ) / (specPooledReturned ms : ℚ) := by
  have h1 : specPooledExpected ms = microExpectedTotal ms := rfl
  have h2 : specPooledFound ms = microFoundTotal ms := rfl
  have h3 : specPooledReturned ms = microReturnedTotal ms :=
    (microReturnedTotal_eq_specPooledReturned ms).symm
  rw [h1, h2, h3]
  simp only [getEvaluateTotals]
  constructor
  · by_cases h : 0 < microExpectedTotal ms
    · rw [if_pos h]; ring
    · rw [if_neg h, Nat.eq_zero_of_not_pos h]
      simp
  · by_cases h : 0 < microReturnedTotal ms
    · rw [if_pos h]; ring
    · rw [if_neg h, Nat.eq_zero_of_not_pos h]
      simp

/-- Helper for claims C2 and C3: counting the members of a duplicate-free list
that also lie in a second list is the cardinality of the set-wise
intersection of the two lists. -/
theorem length_filter_mem_eq_card_inter (l t : List ℤ) (hl : l.Nodup) :
    (l.filter (fun id => decide (id ∈ t))).length = (l.toFinset ∩ t.toFinset).card := by
  rw [← List.toFinset_card_of_nodup (hl.filter _), List.toFinset_filter]
  congr 1
  ext a
  simp

/-- C2: calculateRecall returns 100 on empty expected and empty found, 0 on
empty expected and non-empty found, and otherwise
100 * |expected ∩ found| / |expected| with the intersection taken set-wise,
so order and duplicates in foundIds cannot matter. -/
theorem calculateRecall_spec (foundIds expectedIds : List ℤ)
    (h : expectedIds.Nodup) :
    calculateRecall foundIds expectedIds =
      if expectedIds = [] then (if foundIds = [] then 100 else 0)
      else 100 * ((expectedIds.toFinset ∩ foundIds.toFinset).card : ℚ)
        / (expectedIds.toFinset.card : ℚ) := by
  rcases eq_or_ne expectedIds [] with he | he
  · subst he
    simp [calculateRecall, List.length_eq_zero]
  · have hlen : ¬expectedIds.length = 0 := by
      simpa [List.length_eq_zero] using he
    unfold calculateRecall
    rw [if_neg hlen, if_neg he,
      length_filter_mem_eq_card_inter expectedIds foundIds h,
      List.toFinset_card_of_nodup h]
    ring

/-- C3: calculatePrecision returns 100 when both lists are empty, 0 when
exactly one of them is empty, and otherwise
100 * |expected ∩ found| / |found| with the intersection taken set-wise. -/
theorem calculatePrecision_spec (foundIds expectedIds : List ℤ)
    (h : foundIds.Nodup) :
    calculatePrecision foundIds expectedIds =
      if expectedIds = [] then (if foundIds = [] then 100 else 0)
      else if foundIds = [] then 0
      else 100 * ((expectedIds.toFinset ∩ foundIds.toFinset).card : ℚ)
        / (foundIds.toFinset.card : ℚ) := by
  rcases eq_or_ne expectedIds [] with he | he
  · subst he
    simp [calculatePrecision, List.length_eq_zero]
  · have helen : ¬expectedIds.length = 0 := by
      simpa [List.length_eq_zero] using he
    rcases eq_or_ne foundIds [] with hf | hf
    · subst hf
      simp [calculatePrecision, List.length_eq_zero, he]
    · have hflen : ¬foundIds.length = 0 := by
        simpa [List.length_eq_zero] using hf
      unfold calculatePrecision
      rw [if_neg helen, if_neg hflen, if_neg he, if_neg hf,
        length_filter_mem_eq_card_inter foundIds expectedIds h,
        List.toFinset_card_of_nodup h, Finset.inter_comm]
      ring

/-- Witness for C2: the recall formula evaluated at found [1, 2] and
expected [3, 1]. -/
theorem calculateRecall_spec_witness :
    ([3, 1] : List ℤ).Nodup ∧
    calculateRecall [1, 2] [3, 1] =
      (if ([3, 1] : List ℤ) = [] then (if ([1, 2] : List ℤ) = [] then 100 else 0)
       else 100 * ((([3, 1] : List ℤ).toFinset ∩ ([1, 2] : List ℤ).toFinset).card : ℚ)
         / (([3, 1] : List ℤ).toFinset.card : ℚ)) :=
  ⟨by decide, calculateRecall_spec [1, 2] [3, 1] (by decide)⟩

/-- Witness for C3: the precision formula evaluated at found [1, 2] and
expected [3, 1]. -/
theorem calculatePrecision_spec_witness :
    ([1, 2] : List ℤ).Nodup ∧
    calculatePrecision [1, 2] [3, 1] =
      (if ([3, 1] : List ℤ) = [] then (if ([1, 2] : List ℤ) = [] then 100 else 0)
       else if ([1, 2] : List ℤ) = [] then 0
       else 100 * ((([3, 1] : List ℤ).toFinset ∩ ([1, 2] : List ℤ).toFinset).card : ℚ)
         / (([1, 2] : List ℤ).toFinset.card : ℚ)) :=
  ⟨by decide, calculatePrecision_spec [1, 2] [3, 1] (by decide)⟩

/-- C5: validateResults is valid exactly when every expected id occurs
somewhere in foundIds (order-independent, duplicates in foundIds
irrelevant), an empty expectation list is always valid, and on failure the
message enumerates precisely the missing expected ids. -/
theorem validateResults_spec (foundIds expectedIds : List ℤ) :
    ((validateResults foundIds expectedIds).isValid = true ↔
      ∀ id ∈ expectedIds, id ∈ foundIds) ∧
    (expectedIds = [] → (validateResults foundIds expectedIds).isValid = true) ∧
    ((validateResults foundIds expectedIds).isValid = false →
      (validateResults foundIds expectedIds).message =
        missingIdsMessage (expectedIds.filter (fun id => decide (id ∉ foundIds)))) := by
  by_cases he : expectedIds.length = 0
  · have he0 : expectedIds = [] := List.length_eq_zero.mp he
    subst he0
    simp [validateResults]
  · have hchar : expectedIds.filter (fun id => decide (id ∉ foundIds)) = [] ↔
        ∀ id ∈ expectedIds, id ∈ foundIds := by
      simp [List.filter_eq_nil_iff]
    by_cases hmiss : 0 < (expectedIds.filter (fun id => decide (id ∉ foundIds))).length
    · have hval : validateResults foundIds expectedIds =
          { isValid := false
            message := missingIdsMessage
              (expectedIds.filter (fun id => decide (id ∉ foundIds))) } := by
        unfold validateResults
        rw [if_neg he]
        simp only [if_pos hmiss]
      have hne : expectedIds.filter (fun id => decide (id ∉ foundIds)) ≠ [] :=
        List.length_pos.mp hmiss
      refine ⟨?_, ?_, ?_⟩
      · rw [hval]
        simp only [Bool.false_eq_true, false_iff]
        intro hall
        exact hne (hchar.mpr hall)
      · intro h0
        exact absurd (by simp [h0] : expectedIds.length = 0) he
      · intro _
        rw [hval]
    · have hnil : expectedIds.filter (fun id => decide (id ∉ foundIds)) = [] :=
        List.eq_nil_of_length_eq_zero (Nat.eq_zero_of_not_pos hmiss)
      have hval : (validateResults foundIds expectedIds).isValid = true := by
        unfold validateResults
        rw [if_neg he]
        simp only [if_neg hmiss]
      refine ⟨?_, fun _ => hval, ?_⟩
      · rw [hval]
        simp only [true_iff]
        exact hchar.mp hnil
      · intro hfalse
        rw [hval] at hfalse
        cases hfalse

/-- Witness for C5: on foundIds [2, 5, 1, 3] and expectedIds [2, 5, 6] the
validator reports invalid and the message names exactly the missing id 6. -/
theorem validateResults_spec_witness :
    (validateResults [2, 5, 1, 3] [2, 5, 6]).isValid = false ∧
    (validateResults [2, 5, 1, 3] [2, 5, 6]).message = missingIdsMessage [6] := by
  have hfalse : (validateResults [2, 5, 1, 3] [2, 5, 6]).isValid = false := by
    decide
  have hmsg := (validateResults_spec [2, 5, 1, 3] [2, 5, 6]).2.2 hfalse
  have hfil : List.filter (fun id => decide (id ∉ ([2, 5, 1, 3] : List ℤ)))
      [2, 5, 6] = [6] := by decide
  exact ⟨hfalse, by rw [hmsg, hfil]⟩

/-- Helper for C6: the forEach accumulation of separateRerankedResults is the
pair of order-preserving filters. -/
theorem separate_foldl_eq (minSimilarity : ℚ) (l : List Candidate)
    (a b : List Candidate) :
    l.foldl (fun (acc : List Candidate × List Candidate) result =>
      if minSimilarity ≤ result.score then (acc.1 ++ [result], acc.2)
      else (acc.1, acc.2 ++ [result])) (a, b) =
      (a ++ l.filter (fun r => decide (minSimilarity ≤ r.score)),
       b ++ l.filter (fun r => decide (r.score < minSimilarity))) := by
  induction l generalizing a b with
  | nil => simp
  | cons x xs ih =>
    by_cases h : minSimilarity ≤ x.score
    · rw [List.foldl_cons, if_pos h, ih]
      simp [List.filter_cons, h, not_lt.mpr h]
    · rw [List.foldl_cons, if_neg h, ih]
      simp [List.filter_cons, h, not_le.mp h]

/-- C6: both threshold partitions (the similarity one in search and the
reranked one in separateRerankedResults) place exactly the candidates with
score >= minSimilarity above the threshold in original order, and keep at
most the first 3 candidates with score < minSimilarity, in original order,
below it. -/
theorem threshold_partition_spec (results : List Candidate) (minSimilarity : ℚ) :
    applyThreshold results minSimilarity =
      (results.filter (fun r => decide (minSimilarity ≤ r.score)),
       (results.filter (fun r => decide (r.score < minSimilarity))).take 3) ∧
    ∀ rerankedResults originalResults : List Candidate,
      separateRerankedResults rerankedResults originalResults minSimilarity =
        (rerankedResults.filter (fun r => decide (minSimilarity ≤ r.score)),
         (rerankedResults.filter (fun r => decide (r.score < minSimilarity))).take 3) := by
  refine ⟨rfl, fun rerankedResults originalResults => ?_⟩
  unfold separateRerankedResults
  rw [separate_foldl_eq]
  simp

/-- C7: the final result set keeps every above-threshold candidate when
minSimilarity > 0, and only the first topK of them when minSimilarity <= 0. -/
theorem limitResults_spec (aboveThreshold : List Candidate) (minSimilarity : ℚ)
    (topK : ℕ) :
    (0 < minSimilarity →
      limitResults aboveThreshold minSimilarity topK = aboveThreshold) ∧
    (minSimilarity ≤ 0 →
      limitResults aboveThreshold minSimilarity topK = aboveThreshold.take topK) := by
  constructor
  · intro h
    simp [limitResults, h]
  · intro h
    simp [limitResults, not_lt.mpr h]

/-- Witness for C7: with threshold 1 all candidates survive, with threshold 0
the list is cut to the first topK. -/
theorem limitResults_spec_witness :
    ((0:ℚ) < 1 ∧ limitResults [sampleCandidate] 1 3 = [sampleCandidate]) ∧
    ((0:ℚ) ≤ 0 ∧ limitResults [sampleCandidate] 0 3 = [sampleCandidate].take 3) :=
  ⟨⟨by norm_num, (limitResults_spec [sampleCandidate] 1 3).1 (by norm_num)⟩,
   ⟨le_refl 0, (limitResults_spec [sampleCandidate] 0 3).2 (le_refl 0)⟩⟩

/-- C8: when the rerank call fails, the shaping of the query degrades to
exactly the similarity-based partition-and-limit pipeline (the query still
produces a usable output instead of aborting), and the recorded reranker
cost for the query is 0. -/
theorem rerank_failure_fallback (vendor : String) (results : List Candidate)
    (minSimilarity : ℚ) (topK : ℕ) (err : String) :
    searchShape vendor results minSimilarity topK (Except.error err) =
      searchShapeNoRerank results minSimilarity topK ∧
    (searchShape vendor results minSimilarity topK (Except.error err)).results =
      limitResults (results.filter (fun r => decide (minSimilarity ≤ r.score)))
        minSimilarity topK ∧
    (searchShape vendor results minSimilarity topK (Except.error err)).belowThresholdResults =
      (results.filter (fun r => decide (r.score < minSimilarity))).take 3 ∧
    (searchShape vendor results minSimilarity topK (Except.error err)).rerankerCost = 0 :=
  ⟨rfl, rfl, rfl, rfl⟩

/-- C9: getEvaluateTotals is a pure function of the multiset of recorded
outcomes: permuting the history never changes any reported total or
average. -/
theorem getEvaluateTotals_perm (ms₁ ms₂ : List EvalOutcome)
    (h : ms₁.Perm ms₂) :
    getEvaluateTotals ms₁ = getEvaluateTotals ms₂ := by
  have hlen : ms₁.length = ms₂.length := h.length_eq
  have hsumQ : ∀ f : EvalOutcome → ℚ, (ms₁.map f).sum = (ms₂.map f).sum :=
    fun f => (h.map f).sum_eq
  have hsumN : ∀ f : EvalOutcome → ℕ, (ms₁.map f).sum = (ms₂.map f).sum :=
    fun f => (h.map f).sum_eq
  unfold getEvaluateTotals microExpectedTotal microFoundTotal
    microReturnedTotal weightedRecallSum weightedPrecisionSum
    weightedTotalExpected
  rw [hlen, hsumQ (·.cost), hsumQ (·.recallPct), hsumQ (·.precisionPct),
    hsumN (·.tokens), hsumN (·.runtime),
    hsumN (fun m => if m.expectedCount = 0 then 1 else m.expectedCount),
    hsumN (fun m =>
      if m.expectedCount = 0 then (if m.returnedCount = 0 then 1 else 0)
      else m.foundCount),
    hsumN (fun m =>
      if m.expectedCount = 0 then (if m.returnedCount = 0 then 1 else m.returnedCount)
      else m.returnedCount),
    hsumQ (fun m =>
      if m.expectedCount = 0 then m.recallPct * 1
      else m.recallPct * (m.expectedCount : ℚ)),
    hsumQ (fun m =>
      if m.expectedCount = 0 then m.precisionPct * 1
      else m.precisionPct * (m.expectedCount : ℚ))]

/-- Witness for C9: swapping two concrete recorded outcomes leaves the
aggregate report unchanged. -/
theorem getEvaluateTotals_perm_witness :
    ([sampleOutcomeA, sampleOutcomeB].Perm [sampleOutcomeB, sampleOutcomeA]) ∧
    getEvaluateTotals [sampleOutcomeA, sampleOutcomeB] =
      getEvaluateTotals [sampleOutcomeB, sampleOutcomeA] :=
  ⟨List.Perm.swap sampleOutcomeB sampleOutcomeA [],
   getEvaluateTotals_perm _ _ (List.Perm.swap sampleOutcomeB sampleOutcomeA [])⟩

/-- Helper for C4: a guarded count ratio scaled to a percentage stays within
[0, 100] whenever the numerator is bounded by the denominator. -/
theorem guarded_ratio100_bounds (F E : ℕ) (hFE : F ≤ E) :
    0 ≤ (if 0 < E then ((F : ℚ) / (E : ℚ)) * 100 else 0) ∧
    (if 0 < E then ((F : ℚ) / (E : ℚ)) * 100 else 0) ≤ 100 := by
  by_cases h : 0 < E
  · have hE : (0:ℚ) < (E : ℚ) := by exact_mod_cast h
    rw [if_pos h]
    constructor
    · positivity
    · have h1 : (F : ℚ) ≤ (E : ℚ) := by exact_mod_cast hFE
      rw [div_mul_eq_mul_div, div_le_iff₀ hE]
      nlinarith
  · rw [if_neg h]
    norm_num

/-- Helper for C4: a guarded quotient stays within [0, 100] whenever the
numerator is nonnegative and at most 100 times the denominator. -/
theorem guarded_div_bounds (S : ℚ) (W : ℕ) (hS : 0 ≤ S)
    (hSW : S ≤ 100 * (W : ℚ)) :
    0 ≤ (if 0 < W then S / (W : ℚ) else 0) ∧
    (if 0 < W then S / (W : ℚ) else 0) ≤ 100 := by
  by_cases h : 0 < W
  · have hW : (0:ℚ) < (W : ℚ) := by exact_mod_cast h
    rw [if_pos h]
    refine ⟨div_nonneg hS hW.le, ?_⟩
    rw [div_le_iff₀ hW]
    linarith
  · rw [if_neg h]
    norm_num

/-- Helper for C4: under the data-model preconditions the pooled found-total
never exceeds the pooled expected-total. -/
theorem microFoundTotal_le_expected (ms : List EvalOutcome)
    (h : ∀ m ∈ ms, OutcomeWellFormed m) :
    microFoundTotal ms ≤ microExpectedTotal ms := by
  unfold microFoundTotal microExpectedTotal
  apply List.sum_le_sum
  intro m hm
  by_cases he : m.expectedCount = 0
  · by_cases hr : m.returnedCount = 0 <;> simp [he, hr]
  · simp only [if_neg he]
    exact (h m hm).2.2.2.2.2 (Nat.pos_of_ne_zero he)

/-- Helper for C4: under the data-model preconditions the pooled found-total
never exceeds the pooled returned-total. -/
theorem microFoundTotal_le_returned (ms : List EvalOutcome)
    (h : ∀ m ∈ ms, OutcomeWellFormed m) :
    microFoundTotal ms ≤ microReturnedTotal ms := by
  unfold microFoundTotal microReturnedTotal
  apply List.sum_le_sum
  intro m hm
  by_cases he : m.expectedCount = 0
  · by_cases hr : m.returnedCount = 0 <;> simp [he, hr]
  · simp only [if_neg he]
    exact (h m hm).2.2.2.2.1

/-- Helper for C4: a per-outcome statistic within [0, 100] sums to at most
100 per outcome. -/
theorem macro_sum_bounds (ms : List EvalOutcome) (f : EvalOutcome → ℚ)
    (h0 : ∀ m ∈ ms, 0 ≤ f m) (h100 : ∀ m ∈ ms, f m ≤ 100) :
    0 ≤ (ms.map f).sum ∧ (ms.map f).sum ≤ 100 * (ms.length : ℚ) := by
  constructor
  · apply List.sum_nonneg
    intro x hx
    obtain ⟨m, hm, rfl⟩ := List.mem_map.mp hx
    exact h0 m hm
  · have hb : ∀ x ∈ ms.map f, x ≤ 100 := by
      intro x hx
      obtain ⟨m, hm, rfl⟩ := List.mem_map.mp hx
      exact h100 m hm
    have hs := List.sum_le_card_nsmul (ms.map f) 100 hb
    rw [List.length_map, nsmul_eq_mul] at hs
    linarith

/-- Helper for C4: a per-outcome statistic within [0, 100], weighted by the
(1-floored) expected counts, sums to a nonnegative quantity at most 100 times
the total weight. -/
theorem weighted_sum_bounds (ms : List EvalOutcome) (f : EvalOutcome → ℚ)
    (h0 : ∀ m ∈ ms, 0 ≤ f m) (h100 : ∀ m ∈ ms, f m ≤ 100) :
    0 ≤ (ms.map (fun m =>
        if m.expectedCount = 0 then f m * 1 else f m * (m.expectedCount : ℚ))).sum ∧
    (ms.map (fun m =>
        if m.expectedCount = 0 then f m * 1 else f m * (m.expectedCount : ℚ))).sum ≤
      100 * (((ms.map (fun m =>
        if m.expectedCount = 0 then 1 else m.expectedCount)).sum : ℕ) : ℚ) := by
  have hcast : (((ms.map (fun m =>
      if m.expectedCount = 0 then 1 else m.expectedCount)).sum : ℕ) : ℚ) =
      (ms.map (fun m =>
        if m.expectedCount = 0 then (1:ℚ) else (m.expectedCount : ℚ))).sum := by
    rw [Nat.cast_list_sum, List.map_map]
    congr 1
    apply List.map_congr_left
    intro m _
    by_cases he : m.expectedCount = 0 <;> simp [he, Function.comp]
  constructor
  · apply List.sum_nonneg
    intro x hx
    obtain ⟨m, hm, rfl⟩ := List.mem_map.mp hx
    by_cases he : m.expectedCount = 0
    · simp only [if_pos he, mul_one]
      exact h0 m hm
    · simp only [if_neg he]
      exact mul_nonneg (h0 m hm) (by positivity)
  · rw [hcast, ← List.sum_map_mul_left]
    apply List.sum_le_sum
    intro m hm
    by_cases he : m.expectedCount = 0
    · simp only [if_pos he, mul_one]
      exact h100 m hm
    · simp only [if_neg he]
      have hw : (0:ℚ) ≤ (m.expectedCount : ℚ) := by positivity
      exact mul_le_mul_of_nonneg_right (h100 m hm) hw

/-- C4: under the data-model preconditions on every recorded outcome, all six
aggregate statistics of getEvaluateTotals (micro, macro and weighted recall
and precision) lie within [0, 100]. -/
theorem getEvaluateTotals_bounds (ms : List EvalOutcome)
    (h : ∀ m ∈ ms, OutcomeWellFormed m) :
    (0 ≤ (getEvaluateTotals ms).microAveraging.recallPct ∧
      (getEvaluateTotals ms).microAveraging.recallPct ≤ 100) ∧
    (0 ≤ (getEvaluateTotals ms).microAveraging.precisionPct ∧
      (getEvaluateTotals ms).microAveraging.precisionPct ≤ 100) ∧
    (0 ≤ (getEvaluateTotals ms).macroAveraging.recallPct ∧
      (getEvaluateTotals ms).macroAveraging.recallPct ≤ 100) ∧
    (0 ≤ (getEvaluateTotals ms).macroAveraging.precisionPct ∧
      (getEvaluateTotals ms).macroAveraging.precisionPct ≤ 100) ∧
    (0 ≤ (getEvaluateTotals ms).weightedAveraging.recallPct ∧
      (getEvaluateTotals ms).weightedAveraging.recallPct ≤ 100) ∧
    (0 ≤ (getEvaluateTotals ms).weightedAveraging.precisionPct ∧
      (getEvaluateTotals ms).weightedAveraging.precisionPct ≤ 100) := by
  have hrec0 : ∀ m ∈ ms, 0 ≤ m.recallPct := fun m hm => (h m hm).1
  have hrec100 : ∀ m ∈ ms, m.recallPct ≤ 100 := fun m hm => (h m hm).2.1
  have hprec0 : ∀ m ∈ ms, 0 ≤ m.precisionPct := fun m hm => (h m hm).2.2.1
  have hprec100 : ∀ m ∈ ms, m.precisionPct ≤ 100 := fun m hm => (h m hm).2.2.2.1
  simp only [getEvaluateTotals]
  refine ⟨?_, ?_, ?_, ?_, ?_, ?_⟩
  · exact guarded_ratio100_bounds _ _ (microFoundTotal_le_expected ms h)
  · exact guarded_ratio100_bounds _ _ (microFoundTotal_le_returned ms h)
  · obtain ⟨h0, h1⟩ := macro_sum_bounds ms (·.recallPct) hrec0 hrec100
    exact guarded_div_bounds _ ms.length h0 h1
  · obtain ⟨h0, h1⟩ := macro_sum_bounds ms (·.precisionPct) hprec0 hprec100
    exact guarded_div_bounds _ ms.length h0 h1
  · obtain ⟨h0, h1⟩ := weighted_sum_bounds ms (·.recallPct) hrec0 hrec100
    exact guarded_div_bounds _ (weightedTotalExpected ms) h0 h1
  · obtain ⟨h0, h1⟩ := weighted_sum_bounds ms (·.precisionPct) hprec0 hprec100
    exact guarded_div_bounds _ (weightedTotalExpected ms) h0 h1

/-- Witness for C4: the aggregate bounds instantiated on a concrete
one-outcome history satisfying the preconditions. -/
theorem getEvaluateTotals_bounds_witness :
    (∀ m ∈ [sampleOutcomeA], OutcomeWellFormed m) ∧
    ((0 ≤ (getEvaluateTotals [sampleOutcomeA]).microAveraging.recallPct ∧
      (getEvaluateTotals [sampleOutcomeA]).microAveraging.recallPct ≤ 100) ∧
    (0 ≤ (getEvaluateTotals [sampleOutcomeA]).microAveraging.precisionPct ∧
      (getEvaluateTotals [sampleOutcomeA]).microAveraging.precisionPct ≤ 100) ∧
    (0 ≤ (getEvaluateTotals [sampleOutcomeA]).macroAveraging.recallPct ∧
      (getEvaluateTotals [sampleOutcomeA]).macroAveraging.recallPct ≤ 100) ∧
    (0 ≤ (getEvaluateTotals [sampleOutcomeA]).macroAveraging.precisionPct ∧
      (getEvaluateTotals [sampleOutcomeA]).macroAveraging.precisionPct ≤ 100) ∧
    (0 ≤ (getEvaluateTotals [sampleOutcomeA]).weightedAveraging.recallPct ∧
      (getEvaluateTotals [sampleOutcomeA]).weightedAveraging.recallPct ≤ 100) ∧
    (0 ≤ (getEvaluateTotals [sampleOutcomeA]).weightedAveraging.precisionPct ∧
      (getEvaluateTotals [sampleOutcomeA]).weightedAveraging.precisionPct ≤ 100)) := by
  have hwf : ∀ m ∈ [sampleOutcomeA], OutcomeWellFormed m := by
    intro m hm
    rw [List.mem_singleton] at hm
    subst hm
    unfold OutcomeWellFormed sampleOutcomeA
    norm_num
  exact ⟨hwf, getEvaluateTotals_bounds [sampleOutcomeA] hwf⟩

end EmbeddingsEval
